import Mathlib

/-!
Shallow embedding of the certify proxy's issuer configuration types
(`cmd/proxy/internal/envtypes/issuer.go`) and of the Vault issuer's
wire-encoding helpers (`issuers/vault/types.go`), with theorems settling
the specification claims about them.

Go strings are modelled as Lean `String`, Go `int` / `time.Duration`
(an `int64` of nanoseconds) as `Int`, and a Go `([]byte, error)` return
as `String × Option String` (the `Option String` is the error, `none`
standing for Go's `nil`).
-/

namespace Certify

/-- Model of Go `strings.ToLower` for the ASCII configuration text the
   program compares against (all case arms are ASCII literals): lower-case
   every character. -/
def goToLower (s : String) : String := String.mk (s.data.map Char.toLower)

/-- Go `type Issuer int` from `envtypes/issuer.go`. -/
abbrev Issuer := Int

/-- `VaultIssuer = iota` (= 0) in `envtypes/issuer.go`. -/
def VaultIssuer : Issuer := 0

/-- `CFSSLIssuer` (= 1) in `envtypes/issuer.go`. -/
def CFSSLIssuer : Issuer := 1

/-- `AWSIssuer` (= 2) in `envtypes/issuer.go`. -/
def AWSIssuer : Issuer := 2

/-- The Go zero value of an `int`-backed type: `0`. An `Issuer` or
   `AuthMethod` variable that is never assigned holds this value. -/
def goZeroInt : Int := 0

/-- The error returned by `Issuer.UnmarshalText` on unrecognized input. -/
def issuerUnmarshalErr : String :=
  "invalid issuer specified, supported issuers are \"vault\", \"cfssl\" and \"aws\""

/-- Embedding of `func (i *Issuer) UnmarshalText(in []byte) error`.
   The receiver `*i` is passed in as `i` and the (possibly updated) value is
   returned together with the error; on the `default` branch the method
   returns before assigning, so the input value is passed through. -/
def Issuer.unmarshalText (i : Issuer) (input : String) : Issuer × Option String :=
  let s := goToLower input
  if s = "vault" ∨ s = "hashicorp" then (VaultIssuer, none)
  else if s = "cfssl" ∨ s = "cloudflare" then (CFSSLIssuer, none)
  else if s = "aws" ∨ s = "amazon" ∨ s = "acmpca" ∨ s = "awscmpca" then (AWSIssuer, none)
  else (i, some issuerUnmarshalErr)

/-- Go `type AuthMethod int` from `envtypes/issuer.go`. -/
abbrev AuthMethod := Int

/-- `UnknownAuthMethod = iota` (= 0) in `envtypes/issuer.go`. -/
def UnknownAuthMethod : AuthMethod := 0

/-- `ConstantTokenAuthMethod` (= 1) in `envtypes/issuer.go`. -/
def ConstantTokenAuthMethod : AuthMethod := 1

/-- `RenewingTokenAuthMethod` (= 2) in `envtypes/issuer.go`. -/
def RenewingTokenAuthMethod : AuthMethod := 2

/-- Embedding of `func (am *AuthMethod) UnmarshalText(in []byte) error`.
   Every branch assigns and the method always returns `nil`, so the error
   component is always `none`. -/
def AuthMethod.unmarshalText (_am : AuthMethod) (input : String) : AuthMethod × Option String :=
  let s := goToLower input
  if s = "constant" ∨ s = "token" ∨ s = "constant_token" then (ConstantTokenAuthMethod, none)
  else if s = "renewing" ∨ s = "renewing_token" then (RenewingTokenAuthMethod, none)
  else (UnknownAuthMethod, none)

/-! Vault issuer wire types, from `issuers/vault/types.go`. -/

/-- Model of Vault's `api.Client` (external collaborator): the fields the
   embedded code touches. `SetToken` on the real client assigns the token
   field and nothing else; `address` stands for all the other state. -/
structure Client where
  address : String
  token : String
deriving DecidableEq

/-- `api.Client.SetToken` (external collaborator): assigns the client's
   token field. -/
def Client.setToken (cli : Client) (v : String) : Client :=
  ⟨cli.address, v⟩

/-- Go `type ConstantToken string` from `issuers/vault/types.go`. -/
abbrev ConstantToken := String

/-- Embedding of `func (c ConstantToken) SetToken(_ context.Context, cli *api.Client) error`:
   it calls `cli.SetToken(string(c))` and returns `nil`. The context argument
   is discarded by the source, so it is not modelled; the mutated client is
   returned together with the (always-`nil`) error. -/
def ConstantToken.setToken (c : ConstantToken) (cli : Client) : Client × Option String :=
  (cli.setToken c, none)

/-- Go `type otherSans []string` from `issuers/vault/types.go`. -/
abbrev otherSans := List String

/-- Model of Go `strings.Join(o, ",")`: the elements in order with a comma
   between consecutive elements. -/
def commaJoin : List String → String
  | [] => ""
  | [s] => s
  | s :: rest => s ++ "," ++ commaJoin rest

/-- Embedding of `func (o otherSans) MarshalJSON() ([]byte, error)`:
   the comma-join of the elements wrapped in double quotes, with a `nil`
   error. -/
def otherSans.marshalJSON (o : otherSans) : String × Option String :=
  ("\"" ++ commaJoin o ++ "\"", none)

/-- Model of Go `strings.Split(s, ",")` (the decoding direction the claims
   describe), character by character: cut the string at every comma. -/
def commaSplitAux : List Char → List Char → List String
  | [], acc => [String.mk acc.reverse]
  | c :: rest, acc =>
      if c = ',' then String.mk acc.reverse :: commaSplitAux rest []
      else commaSplitAux rest (c :: acc)

/-- Split a string at every comma; on Go's `strings.Split` semantics the
   result is never empty (splitting `""` gives `[""]`). -/
def commaSplit (s : String) : List String := commaSplitAux s.data []

/-! Model of Go `time.Duration` and its `String` method, needed by the
   `ttl` wire encoder. A duration is an `int64` count of nanoseconds. -/

/-- Go `time.Microsecond` in nanoseconds. -/
def goMicrosecond : Nat := 1000

/-- Go `time.Millisecond` in nanoseconds. -/
def goMillisecond : Nat := 1000000

/-- Go `time.Second` in nanoseconds. -/
def goSecond : Nat := 1000000000

/-- Go `time.Minute` in nanoseconds, as a duration value. -/
def goMinute : Int := 60 * (goSecond : Int)

/-- Go `time.Hour` in nanoseconds, as a duration value. -/
def goHour : Int := 60 * goMinute

/-- Model of Go `time`'s internal `fmtFrac`: format the `prec`
   least-significant decimal digits of `v` as a fraction, omitting trailing
   zeros, prefixed with a decimal point when any digit is printed; return
   the fraction text and `v` with those digits divided off. The digits are
   produced least-significant first, so the accumulator is prepended to. -/
def fmtFracDigits : Nat → Nat → Bool → String → String × Nat
  | 0, v, doPrint, acc => ((if doPrint then "." ++ acc else acc), v)
  | n + 1, v, doPrint, acc =>
      let digit := v % 10
      let doPrint := doPrint || decide (digit ≠ 0)
      let acc := if doPrint then String.mk [Char.ofNat (digit + 48)] ++ acc else acc
      fmtFracDigits n (v / 10) doPrint acc

/-- Model of Go `time.Duration.String` on the absolute value `u` of the
   duration, in nanoseconds. Below one second it uses "ns"/"µs"/"ms" units
   with a fractional part; from one second up it prints seconds, then
   minutes and hours when nonzero, with `fmtFrac` giving the sub-second
   fraction. `Nat.repr` models Go's `fmtInt` decimal printing. -/
def durationStringNat (u : Nat) : String :=
  if u < goSecond then
    if u = 0 then "0s"
    else if u < goMicrosecond then
      Nat.repr u ++ "ns"
    else if u < goMillisecond then
      let (frac, v) := fmtFracDigits 3 u false ""
      Nat.repr v ++ frac ++ "µs"
    else
      let (frac, v) := fmtFracDigits 6 u false ""
      Nat.repr v ++ frac ++ "ms"
  else
    let (frac, v) := fmtFracDigits 9 u false ""
    let s := Nat.repr (v % 60) ++ frac ++ "s"
    let v := v / 60
    if v > 0 then
      let s := Nat.repr (v % 60) ++ "m" ++ s
      let v := v / 60
      if v > 0 then Nat.repr v ++ "h" ++ s else s
    else s

/-- Model of Go `time.Duration.String`: the sign, then the formatted
   absolute value. -/
def durationString (d : Int) : String :=
  if d < 0 then "-" ++ durationStringNat d.natAbs else durationStringNat d.natAbs

/-- Go `type ttl time.Duration` from `issuers/vault/types.go`. -/
abbrev ttl := Int

/-- Embedding of `func (t ttl) MarshalJSON() ([]byte, error)`: the
   duration's `String` form wrapped in double quotes, with a `nil` error. -/
def ttl.marshalJSON (t : ttl) : String × Option String :=
  ("\"" ++ durationString t ++ "\"", none)

/-! The `csrOpts` issuance-request struct of `issuers/vault/types.go` and
   its serialized wire form under Go `encoding/json`. -/

/-- Go `type csrOpts struct` from `issuers/vault/types.go`: the JSON-ish
   issuance request sent to the Vault PKI secrets engine. -/
structure csrOpts where
  CSR : String
  CommonName : String
  ExcludeCNFromSANS : Bool
  Format : String
  URISans : otherSans
  OtherSans : otherSans
  TimeToLive : ttl

/-- JSON rendering of a Go string (the fields hold names and formats with
   no characters needing escapes). -/
def jsonString (s : String) : String := "\"" ++ s ++ "\""

/-- JSON rendering of a Go bool. -/
def jsonBool (b : Bool) : String := if b then "true" else "false"

/-- The serialized fields of a `csrOpts` value under Go `encoding/json`,
   as ordered key/value pairs. A field tagged `omitempty` is dropped when
   its Go value is empty — length zero for the `otherSans` slices, zero for
   the `ttl` integer — before any `MarshalJSON` method is consulted;
   otherwise the type's `MarshalJSON` output is used. -/
def csrOpts.jsonFields (o : csrOpts) : List (String × String) :=
  [("csr", jsonString o.CSR),
   ("common_name", jsonString o.CommonName),
   ("exclude_cn_from_sans", jsonBool o.ExcludeCNFromSANS),
   ("format", jsonString o.Format)]
  ++ (if o.URISans.length = 0 then [] else [("uri_sans", (otherSans.marshalJSON o.URISans).1)])
  ++ (if o.OtherSans.length = 0 then [] else [("other_sans", (otherSans.marshalJSON o.OtherSans).1)])
  ++ (if o.TimeToLive = 0 then [] else [("ttl", (ttl.marshalJSON o.TimeToLive).1)])

/-! The renewing-token configuration block of the `Vault` struct in
   `envtypes/issuer.go`, with the defaults its `envconfig` struct tags
   declare, and the construction-time validation. -/

/-- The `AuthMethodRenewingToken` block of the `Vault` struct in
   `envtypes/issuer.go`. -/
structure RenewingTokenConfig where
  Initial : String
  RenewBefore : Int
  TimeToLive : Int
deriving DecidableEq

/-- The default the `RenewBefore` struct tag declares: `default:"30m"`,
   the duration 30 minutes. -/
def renewBeforeDefault : Int := 30 * goMinute

/-- The default the `TimeToLive` struct tag declares: `default:"24h"`,
   the duration 24 hours. -/
def timeToLiveDefault : Int := 24 * goHour

/-- Model of the `envconfig` library populating the renewing-token block:
   a duration field left unset in the environment (`none`) takes the parsed
   value of its `default` struct tag; a set field takes the supplied
   (parsed) value. `Initial` has no default tag, so an unset value is Go's
   zero string. -/
def renewingTokenFromEnv (envInitial : Option String)
    (envRenewBefore envTimeToLive : Option Int) : RenewingTokenConfig :=
  { Initial := envInitial.getD ""
    RenewBefore := envRenewBefore.getD renewBeforeDefault
    TimeToLive := envTimeToLive.getD timeToLiveDefault }

/-- The `Vault` issuer-configuration struct of `envtypes/issuer.go`
   (`url.URL` modelled as its string form). -/
structure Vault where
  URL : String
  Token : String
  AuthMethod : AuthMethod
  AuthMethodRenewingToken : RenewingTokenConfig
  AuthMethodConstantToken : ConstantToken
  Mount : String
  Role : String
  CACertPath : String
  TimeToLive : Int
  URISubjectAlternativeNames : List String
  OtherSubjectAlternativeNames : List String

/-- The credential provider a constructed Vault backend carries: either the
   constant token or the renewing-token configuration. -/
inductive CredentialProvider where
  | constant (tok : ConstantToken)
  | renewing (cfg : RenewingTokenConfig)
deriving DecidableEq

/-- Modelled from the spec: the proxy's issuer construction for the Vault
   backend (the `cmd/proxy` wiring that consumes `envtypes.Vault` is not
   under `src/`). Spec 4.4: construction "fails fast … if: the configured
   AuthMethodKind is Unknown for a backend that requires authentication, …
   or RenewBefore ≥ TimeToLive for a renewing credential"; otherwise the
   matching credential provider is built. -/
def buildVaultCredentialProvider (v : Vault) : Except String CredentialProvider :=
  if v.AuthMethod = ConstantTokenAuthMethod then
    .ok (.constant v.AuthMethodConstantToken)
  else if v.AuthMethod = RenewingTokenAuthMethod then
    if v.AuthMethodRenewingToken.TimeToLive ≤ v.AuthMethodRenewingToken.RenewBefore then
      .error "configuration error: RenewBefore must be smaller than TimeToLive"
    else
      .ok (.renewing v.AuthMethodRenewingToken)
  else
    .error "configuration error: unknown auth method"

/-! Helper lemmas about splitting a comma-join. -/

theorem commaSplitAux_no_comma (cs : List Char) :
    ∀ acc : List Char, (∀ c ∈ cs, c ≠ ',') →
      commaSplitAux cs acc = [String.mk (acc.reverse ++ cs)] := by
  induction cs with
  | nil => intro acc _; simp [commaSplitAux]
  | cons c cs ih =>
      intro acc h
      have hc : c ≠ ',' := h c (List.mem_cons_self c cs)
      have hrest : ∀ x ∈ cs, x ≠ ',' := fun x hx => h x (List.mem_cons_of_mem c hx)
      simp only [commaSplitAux, if_neg hc]
      rw [ih (c :: acc) hrest]
      simp

theorem commaSplitAux_append_comma (cs : List Char) :
    ∀ (acc rest : List Char), (∀ c ∈ cs, c ≠ ',') →
      commaSplitAux (cs ++ ',' :: rest) acc =
        String.mk (acc.reverse ++ cs) :: commaSplitAux rest [] := by
  induction cs with
  | nil => intro acc rest _; simp [commaSplitAux]
  | cons c cs ih =>
      intro acc rest h
      have hc : c ≠ ',' := h c (List.mem_cons_self c cs)
      have hrest : ∀ x ∈ cs, x ≠ ',' := fun x hx => h x (List.mem_cons_of_mem c hx)
      simp only [List.cons_append, commaSplitAux, if_neg hc]
      have step := ih (c :: acc) rest hrest
      rw [show commaSplitAux (cs.append (',' :: rest)) (c :: acc) =
            commaSplitAux (cs ++ ',' :: rest) (c :: acc) from rfl, step]
      simp

theorem commaSplit_commaJoin (l : List String) (hne : l ≠ [])
    (hfree : ∀ s ∈ l, ∀ c ∈ s.data, c ≠ ',') :
    commaSplit (commaJoin l) = l := by
  induction l with
  | nil => exact absurd rfl hne
  | cons s rest ih =>
      cases rest with
      | nil =>
          simp only [commaJoin, commaSplit]
          rw [commaSplitAux_no_comma s.data [] (hfree s (List.mem_cons_self s []))]
          simp
      | cons t rest' =>
          have hjoin : (commaJoin (s :: t :: rest')).data =
              s.data ++ ',' :: (commaJoin (t :: rest')).data := by
            show (s ++ "," ++ commaJoin (t :: rest')).data = _
            have hcomma : ("," : String).data = [','] := rfl
            rw [String.data_append, String.data_append, hcomma, List.append_assoc]
            rfl
          have hs : ∀ c ∈ s.data, c ≠ ',' := hfree s (List.mem_cons_self s _)
          have hrest : ∀ x ∈ t :: rest', ∀ c ∈ x.data, c ≠ ',' :=
            fun x hx => hfree x (List.mem_cons_of_mem s hx)
          have htail := ih (by simp) hrest
          simp only [commaSplit] at htail ⊢
          rw [hjoin, commaSplitAux_append_comma s.data [] _ hs, htail]
          simp

/-! Claim theorems. -/

/-- C1 (counterexample): `Issuer.UnmarshalText` does not succeed *exactly*
   on the six aliases the claim lists — the input "acmpca" is outside that
   list, yet parsing it succeeds (with `AWSIssuer`) instead of returning
   the listed-options error. -/
theorem issuer_unmarshal_accepts_acmpca :
    Issuer.unmarshalText VaultIssuer "acmpca" = (AWSIssuer, none) ∧
      goToLower "acmpca" ∉ ["vault", "hashicorp", "cfssl", "cloudflare", "aws", "amazon"] := by
  decide

/-- C1 (amended): parsing `Issuer` succeeds exactly on the aliases
   "vault"/"hashicorp" (→ `VaultIssuer`), "cfssl"/"cloudflare"
   (→ `CFSSLIssuer`) and "aws"/"amazon"/"acmpca"/"awscmpca" (→ `AWSIssuer`),
   compared case-insensitively, and on every other string it returns the
   error listing the three valid options "vault", "cfssl" and "aws". -/
theorem issuer_unmarshal_alias_spec (i : Issuer) (s : String) :
    Issuer.unmarshalText i s =
      (if goToLower s ∈ ["vault", "hashicorp"] then (VaultIssuer, none)
       else if goToLower s ∈ ["cfssl", "cloudflare"] then (CFSSLIssuer, none)
       else if goToLower s ∈ ["aws", "amazon", "acmpca", "awscmpca"] then (AWSIssuer, none)
       else (i, some issuerUnmarshalErr)) ∧
    issuerUnmarshalErr =
      "invalid issuer specified, supported issuers are \"vault\", \"cfssl\" and \"aws\"" := by
  refine ⟨?_, rfl⟩
  simp [Issuer.unmarshalText, List.mem_cons, List.mem_singleton]

/-- C2: parsing `AuthMethod` never fails: "constant"/"token"/"constant_token"
   (case-insensitively) give `ConstantTokenAuthMethod`,
   "renewing"/"renewing_token" give `RenewingTokenAuthMethod`, and every
   other string gives `UnknownAuthMethod`, always with a `nil` error. -/
theorem authMethod_unmarshal_total_spec (am : AuthMethod) (s : String) :
    AuthMethod.unmarshalText am s =
      (if goToLower s ∈ ["constant", "token", "constant_token"] then
        (ConstantTokenAuthMethod, none)
       else if goToLower s ∈ ["renewing", "renewing_token"] then
        (RenewingTokenAuthMethod, none)
       else (UnknownAuthMethod, none)) ∧
    (AuthMethod.unmarshalText am s).2 = none := by
  constructor
  · simp [AuthMethod.unmarshalText, List.mem_cons, List.mem_singleton]
  · simp only [AuthMethod.unmarshalText]
    split
    · rfl
    · split <;> rfl

/-- C3 (counterexample): the round-trip fails on the empty list, whose
   elements are vacuously non-empty and comma-free: encoding `[]` gives the
   empty join, and splitting that on commas yields `[""]`, not `[]`. -/
theorem sans_roundtrip_fails_on_empty :
    (∀ s ∈ ([] : List String), s ≠ "" ∧ ∀ c ∈ s.data, c ≠ ',') ∧
      commaSplit (commaJoin []) = [""] ∧ ([""] : List String) ≠ [] := by
  refine ⟨by simp, by decide, by decide⟩

/-- C3 (amended): `otherSans.marshalJSON` renders the SAN list as its
   comma-join wrapped in quotes, in caller order and without error, and for
   every *non-empty* list of non-empty comma-free strings, splitting the
   joined string on commas recovers the original list in order. -/
theorem sans_marshal_roundtrip (l : otherSans) (hne : l ≠ [])
    (helts : ∀ s ∈ l, s ≠ "" ∧ ∀ c ∈ s.data, c ≠ ',') :
    otherSans.marshalJSON l = ("\"" ++ commaJoin l ++ "\"", none) ∧
      commaSplit (commaJoin l) = l := by
  exact ⟨rfl, commaSplit_commaJoin l hne (fun s hs => (helts s hs).2)⟩

/-- C3 (witness): the amended round-trip at the claim's example
   `["a", "b"]`. -/
theorem sans_marshal_roundtrip_witness :
    otherSans.marshalJSON ["a", "b"] = ("\"" ++ commaJoin ["a", "b"] ++ "\"", none) ∧
      commaSplit (commaJoin ["a", "b"]) = ["a", "b"] :=
  sans_marshal_roundtrip ["a", "b"] (by decide) (by decide)

/-- C4: when the `URISans` and `OtherSans` slices of a `csrOpts` are empty
   (or nil — both have length zero), their `omitempty`-tagged fields are
   omitted from the serialized wire form entirely, rather than serialized
   as an empty string. -/
theorem csr_sans_omitted_when_empty (o : csrOpts)
    (hu : o.URISans = []) (ho : o.OtherSans = []) :
    "uri_sans" ∉ (csrOpts.jsonFields o).map Prod.fst ∧
      "other_sans" ∉ (csrOpts.jsonFields o).map Prod.fst := by
  by_cases ht : o.TimeToLive = 0 <;> simp [csrOpts.jsonFields, hu, ho, ht]

/-- C4 (witness): the SAN fields are absent for a concrete request with
   empty SAN lists. -/
theorem csr_sans_omitted_when_empty_witness :
    "uri_sans" ∉ (csrOpts.jsonFields ⟨"", "cn", false, "", [], [], 0⟩).map Prod.fst ∧
      "other_sans" ∉ (csrOpts.jsonFields ⟨"", "cn", false, "", [], [], 0⟩).map Prod.fst :=
  csr_sans_omitted_when_empty ⟨"", "cn", false, "", [], [], 0⟩ rfl rfl

/-- C5: `ttl.marshalJSON` always returns the duration's `String` form
   wrapped in double quotes with a `nil` error; at 24 hours it produces
   `"24h0m0s"` and at 720 hours `"720h0m0s"`. -/
theorem ttl_marshal_spec :
    (∀ t : ttl, ttl.marshalJSON t = ("\"" ++ durationString t ++ "\"", none)) ∧
      ttl.marshalJSON (24 * goHour) = ("\"24h0m0s\"", none) ∧
      ttl.marshalJSON (720 * goHour) = ("\"720h0m0s\"", none) := by
  exact ⟨fun t => rfl, by decide, by decide⟩

/-- C6: `ConstantToken.SetToken` sets the client's token to exactly the
   constant's value, leaves the client's other state alone, and returns a
   `nil` error. -/
theorem constantToken_setToken_spec (c : ConstantToken) (cli : Client) :
    (ConstantToken.setToken c cli).1.token = c ∧
      (ConstantToken.setToken c cli).1.address = cli.address ∧
      (ConstantToken.setToken c cli).2 = none :=
  ⟨rfl, rfl, rfl⟩

/-- C7: construction validates the renewing-token invariant: a successfully
   constructed renewing credential provider satisfies
   `RenewBefore < TimeToLive`, and a renewing configuration with
   `RenewBefore ≥ TimeToLive` fails construction with a configuration
   error. -/
theorem renewing_invariant_validated (v : Vault) :
    (∀ cfg, buildVaultCredentialProvider v = .ok (.renewing cfg) →
      cfg.RenewBefore < cfg.TimeToLive) ∧
    (v.AuthMethod = RenewingTokenAuthMethod →
      v.AuthMethodRenewingToken.TimeToLive ≤ v.AuthMethodRenewingToken.RenewBefore →
      buildVaultCredentialProvider v =
        .error "configuration error: RenewBefore must be smaller than TimeToLive") := by
  constructor
  · intro cfg h
    unfold buildVaultCredentialProvider at h
    split at h
    · exact absurd (Except.ok.inj h) (by simp)
    · split at h
      · split at h
        · exact absurd h (by simp)
        · have hcfg := CredentialProvider.renewing.inj (Except.ok.inj h)
          subst hcfg
          omega
      · exact absurd h (by simp)
  · intro hm hle
    have hne : v.AuthMethod ≠ ConstantTokenAuthMethod := by
      rw [hm]; decide
    unfold buildVaultCredentialProvider
    rw [if_neg hne, if_pos hm, if_pos hle]

/-- C7 (witness): a renewing-token configuration with
   `RenewBefore = TimeToLive = 100` fails construction. -/
theorem renewing_invariant_validated_witness :
    buildVaultCredentialProvider
        ⟨"", "", RenewingTokenAuthMethod, ⟨"tok", 100, 100⟩, "", "pki", "r", "", 0, [], []⟩ =
      .error "configuration error: RenewBefore must be smaller than TimeToLive" :=
  (renewing_invariant_validated _).2 rfl (by decide)

/-- C8: with the duration fields unset, the renewing-token block takes the
   struct-tag defaults: `RenewBefore` is 30 minutes ("30m0s") and
   `TimeToLive` is 24 hours ("24h0m0s"). -/
theorem renewing_token_defaults :
    (renewingTokenFromEnv none none none).RenewBefore = 30 * goMinute ∧
      (renewingTokenFromEnv none none none).TimeToLive = 24 * goHour ∧
      durationString (renewingTokenFromEnv none none none).RenewBefore = "30m0s" ∧
      durationString (renewingTokenFromEnv none none none).TimeToLive = "24h0m0s" := by
  refine ⟨rfl, rfl, by decide, by decide⟩

/-- C9: on any input outside the recognized aliases, `Issuer.UnmarshalText`
   returns the error and passes the receiver through unchanged: no
   assignment happens on the failure path. -/
theorem issuer_unmarshal_error_atomic (i : Issuer) (s : String)
    (h : goToLower s ∉
      ["vault", "hashicorp", "cfssl", "cloudflare", "aws", "amazon", "acmpca", "awscmpca"]) :
    Issuer.unmarshalText i s = (i, some issuerUnmarshalErr) := by
  simp only [List.mem_cons, List.not_mem_nil, or_false, not_or] at h
  obtain ⟨h1, h2, h3, h4, h5, h6, h7, h8⟩ := h
  simp [Issuer.unmarshalText, h1, h2, h3, h4, h5, h6, h7, h8]

/-- C9 (witness): parsing "bogus" into an `Issuer` holding `CFSSLIssuer`
   errors and leaves the value at `CFSSLIssuer`. -/
theorem issuer_unmarshal_error_atomic_witness :
    Issuer.unmarshalText CFSSLIssuer "bogus" = (CFSSLIssuer, some issuerUnmarshalErr) :=
  issuer_unmarshal_error_atomic CFSSLIssuer "bogus" (by decide)

/-- C10: the Go zero value (0) of `Issuer` is `VaultIssuer` — a valid
   issuer, distinct from the other two — while the zero value of
   `AuthMethod` is `UnknownAuthMethod`, the invalid-input marker, distinct
   from the two valid methods. -/
theorem enum_zero_values :
    (goZeroInt : Issuer) = VaultIssuer ∧
      (goZeroInt : AuthMethod) = UnknownAuthMethod ∧
      VaultIssuer ≠ CFSSLIssuer ∧ VaultIssuer ≠ AWSIssuer ∧ CFSSLIssuer ≠ AWSIssuer ∧
      UnknownAuthMethod ≠ ConstantTokenAuthMethod ∧
      UnknownAuthMethod ≠ RenewingTokenAuthMethod ∧
      ConstantTokenAuthMethod ≠ RenewingTokenAuthMethod := by
  decide

end Certify
